import Mathlib

/-!
# Verification of the AI Tab Groups background pipeline

A shallow embedding of `src/background.js` (the primary variant of the
extension's background script): label parsing, the group resolver
(`findTabGroup`), the group assigner (`groupTab`), the retrying label
generator (`generateTagsForTab`), and a small-step event model of the
watcher (`processTab`) / request-queue drain loop (`processQueue`)
machinery, together with theorems about the specified properties.

String primitives are modelled character-wise (structural recursion over
`String.data`) so that every definition evaluates inside the kernel; they
mirror the JavaScript semantics of `toLowerCase`, `trim`, `slice` and
`split(',')` on the inputs that occur here.
-/

namespace AITabGroups

/-! ## String primitives -/

/-- JavaScript `s.toLowerCase()`. -/
def lowerStr (s : String) : String := ⟨s.data.map Char.toLower⟩

/-- JavaScript `s.trim()` (leading and trailing whitespace removed). -/
def trimStr (s : String) : String :=
  ⟨((s.data.dropWhile Char.isWhitespace).reverse.dropWhile Char.isWhitespace).reverse⟩

/-- Split a character list at every occurrence of `sep`; the result is
always non-empty, and splitting the empty list yields `[[]]`, matching
JavaScript `''.split(',') === ['']`. -/
def splitCharList (sep : Char) : List Char → List (List Char)
  | [] => [[]]
  | c :: rest =>
    let r := splitCharList sep rest
    if c = sep then [] :: r
    else
      match r with
      | h :: t => (c :: h) :: t
      | [] => [[c]]

/-- JavaScript `s.split(',')`. -/
def splitComma (s : String) : List String :=
  (splitCharList ',' s.data).map (fun l => (⟨l⟩ : String))

/-- JavaScript `s.slice(-1) === 's'`: the last character is a lowercase
`'s'` (case-sensitive). -/
def endsInS (s : String) : Bool := s.data.getLast? == some 's'

/-- JavaScript `s.slice(0, -1)`: drop the last character. -/
def dropLast1 (s : String) : String := ⟨s.data.dropLast⟩

/-! ## Label parsing -/

/-- `response.split(',').map(tag => tag.trim())` from
`generateTagsForTab`. -/
def splitTrim (response : String) : List String :=
  (splitComma response).map trimStr

/-! ## Tab groups and the group resolver -/

/-- A Chrome tab group as seen by the background script: identifier,
display title and symbolic color.  Chrome assigns nonzero identifiers;
the JavaScript code relies on this through truthiness tests. -/
structure Group where
  id : Nat
  title : String
  color : String
deriving DecidableEq, Repr

/-- The first-pass comparison of `findTabGroup`:
`group.title.toLowerCase() === tagName.toLowerCase()`. -/
def exactTitleMatch (title tag : String) : Bool :=
  lowerStr title == lowerStr tag

/-- `tagName = tagName.toLowerCase()` followed by
`if (tagName.slice(-1) === 's') tagName = tagName.slice(0, -1)`: the
tag is lowercased first, so its trailing-`'s'` strip is effectively
case-insensitive. -/
def strippedTag (tagName : String) : String :=
  let t0 := lowerStr tagName
  if endsInS t0 then dropLast1 t0 else t0

/-- The fallback-pass comparison of `findTabGroup`:
`title = group.title.toLowerCase()` stripped of its last character only
when `group.title.slice(-1) === 's'` — the strip test reads the ORIGINAL
title, so it is case-sensitive — compared with the stripped tag. -/
def fallbackTitleMatch (title tag : String) : Bool :=
  (if endsInS title then dropLast1 (lowerStr title) else lowerStr title)
    == strippedTag tag

/-- `findTabGroup(windowId, tagName)` from `background.js`: the first
pass looks for a case-insensitive exact title match over the window's
groups; the fallback pass applies the de-pluralizing comparison.
Returns the matched group id, `none` standing for the source's
`false`. -/
def findTabGroup (groups : List Group) (tagName : String) : Option Nat :=
  match groups.find? (fun g => exactTitleMatch g.title tagName) with
  | some g => some g.id
  | none =>
    match groups.find? (fun g => fallbackTitleMatch g.title tagName) with
    | some g => some g.id
    | none => none

/-- The per-group match test actually performed by `findTabGroup`: exact
case-insensitive comparison, or the fallback comparison in which the tag
is lowercased and then de-pluralized, while the title is de-pluralized
only when its original last character is a lowercase `'s'`. -/
def codeLabelMatches (title tag : String) : Bool :=
  exactTitleMatch title tag || fallbackTitleMatch title tag

/-- Modelled from the spec's words (for comparison with the code): the
match test in which a single trailing "s" is stripped case-insensitively
from BOTH the group title and the label before the case-insensitive
comparison. -/
def specLabelMatches (title tag : String) : Bool :=
  lowerStr title == lowerStr tag ||
  ((let title0 := lowerStr title
    if endsInS title0 then dropLast1 title0 else title0)
   == strippedTag tag)

/-- The tag-resolution loop at the top of `groupTab`: try each tag in
order through `findTabGroup`, accept the first truthy result (`0` is
falsy in JavaScript, so a group id of `0` would be skipped), and return
the matched group id together with the matching tag. -/
def resolveTags (groups : List Group) (tags : List String) : Option (Nat × String) :=
  match tags with
  | [] => none
  | tag :: rest =>
    match findTabGroup groups tag with
    | some gid => if gid ≠ 0 then some (gid, tag) else resolveTags groups rest
    | none => resolveTags groups rest

/-! ## The group assigner -/

/-- The fixed color palette of `groupTab`. -/
def colors : List String :=
  ["grey", "blue", "red", "yellow", "green", "pink", "purple", "cyan", "orange"]

/-- The slice of platform state `groupTab` reads and mutates: the groups
of the tab's window, a fresh-id supply for newly created groups, and the
tab's own group membership. -/
structure PState where
  groups : List Group
  nextId : Nat
  tabGroupId : Option Nat
deriving DecidableEq, Repr

/-- `groupTab(tab, tags)` from `background.js` as a state transformer.
Guard: no-op on an empty tag list.  Otherwise resolve the tags; on a hit,
add the tab to the existing group; on a miss, create a new group holding
the tab and title it with the first tag, coloring it by the
pseudo-random palette index `colorIdx` (the source draws
`Math.floor(Math.random() * colors.length)`; the model takes the draw as
an input). -/
def groupTab (ps : PState) (tags : List String) (colorIdx : Nat) : PState :=
  if tags.isEmpty then ps
  else
    match resolveTags ps.groups tags with
    | some (gid, _) => { ps with tabGroupId := some gid }
    | none =>
      let matchedTag := tags.headD ""
      let color := colors.getD (colorIdx % colors.length) "grey"
      { groups := ps.groups ++ [⟨ps.nextId, matchedTag, color⟩]
        nextId := ps.nextId + 1
        tabGroupId := some ps.nextId }

/-! ## The label generator with retry

`generateTagsForTab(content, tab, retryCount)` from `background.js`.  The
external model service is abstracted as an oracle: for each attempt
number, whether `ai.languageModel.create` would succeed (consulted only
when no session is live) and whether `aiSession.prompt` resolves with a
response string or rejects.  The model records the returned value, the
UI notifications sent (`showProcessing` at the top of each attempt's
`try` body, `hide` only when the final attempt's `catch` runs), how many
prompt attempts were started, and whether a session is live afterwards.
-/

/-- One-way notifications the background script sends to the tab's
content script. -/
inductive UiMsg
  | showProcessing
  | hide
deriving DecidableEq, Repr

/-- Oracle for the model service: `createOk n` tells whether session
creation succeeds when attempted during attempt `n`; `promptRes n` is
attempt `n`'s prompt outcome (`none` = the promise rejects). -/
structure GenOracle where
  createOk : Nat → Bool
  promptRes : Nat → Option String

/-- Observable outcome of a `generateTagsForTab` call. -/
structure GenOut where
  result : Option (List String)
  msgs : List UiMsg
  prompts : Nat
  sess : Bool
deriving DecidableEq, Repr

/-- Recursion worker for `generateTagsForTab`, structural in the first
argument `retriesLeft`, which the wrapper keeps equal to
`2 - retryCount`; the source's `retryCount < 2` test is exactly
`retriesLeft > 0` under this coupling (for every natural `retryCount`,
including out-of-range ones).  The two arms are the same attempt body;
they differ only in what the prompt-rejection handler does, mirroring
the source's `if (retryCount < 2)`. -/
def generateTagsAux (o : GenOracle) : Nat → Bool → Nat → GenOut
  | 0, sess, retryCount =>
    if sess = false ∧ o.createOk retryCount = false then
      { result := none, msgs := [], prompts := 0, sess := false }
    else
      match o.promptRes retryCount with
      | some r =>
          { result := some ((splitTrim r).take 5)
            msgs := [UiMsg.showProcessing], prompts := 1, sess := true }
      | none =>
          { result := none, msgs := [UiMsg.showProcessing, UiMsg.hide]
            prompts := 1, sess := true }
  | Nat.succ k, sess, retryCount =>
    if sess = false ∧ o.createOk retryCount = false then
      { result := none, msgs := [], prompts := 0, sess := false }
    else
      match o.promptRes retryCount with
      | some r =>
          { result := some ((splitTrim r).take 5)
            msgs := [UiMsg.showProcessing], prompts := 1, sess := true }
      | none =>
          let recOut := generateTagsAux o k false (retryCount + 1)
          { result := recOut.result
            msgs := UiMsg.showProcessing :: recOut.msgs
            prompts := 1 + recOut.prompts
            sess := recOut.sess }

/-- `generateTagsForTab` from `background.js`, with `sess` standing for
`aiSession !== null` on entry and `retryCount` the source's retry
counter.  If no session is live and creation fails, the function returns
`null` at once (before the `try` body, so no notification and no prompt
attempt).  Otherwise the attempt prompts; on success it returns the
split-trimmed response truncated to the first five tags (`return
tags.slice(0, 5)`); on rejection with `retryCount < 2` it nulls the
session and recurses, and on the third rejection it sends `hide` and
returns `null` (without resetting the session). -/
def generateTagsForTab (o : GenOracle) (sess : Bool) (retryCount : Nat) : GenOut :=
  generateTagsAux o (2 - retryCount) sess retryCount

/-! ## The watcher / queue / drain-loop event system

A small-step model of the cooperative event loop around `processTab` and
`processQueue`.  The single-threaded JavaScript runtime executes each
synchronous segment (code between `await` suspension points) atomically;
each such segment is one deterministic step here, and the scheduler's
freedom (which pending continuation resumes next, how each asynchronous
operation turns out) is the event list.

Synchronous segments in the source:
* `processTab` up to `await getTabContent` — eligibility filter plus
  `runningTabs.add` (event `load`);
* resumption of `processTab` — `requestQueue.push` plus the synchronous
  prologue of the `processQueue()` call, which either returns at the
  re-entrancy guard or sets `isProcessingQueue` and starts generating for
  the head request (event `fetchDone`);
* resumption of the drain loop when `generateTagsForTab` settles — either
  starts `groupTab` or runs the `finally` block (delete + shift) and the
  loop test, starting the next head's generation or clearing
  `isProcessingQueue` (event `genDone`);
* resumption when `groupTab` settles, likewise (event `groupDone`).
-/

/-- Program counter of an active drain-loop task: which phase of the head
request's pipeline is in flight, for which tab id. -/
inductive DrainPC
  | gen (tab : Nat)
  | group (tab : Nat)
deriving DecidableEq, Repr

/-- The tab id a drain-loop phase is working on. -/
def DrainPC.tab : DrainPC → Nat
  | .gen t => t
  | .group t => t

/-- How a `generateTagsForTab` call settles, as seen by the drain loop:
a truthy tag list, a `null` return, or (defensively handled by the
loop's `catch`) a thrown error. -/
inductive GenOutcome
  | success
  | nullRes
  | raise
deriving DecidableEq, Repr

/-- The global mutable state of `background.js`: `runningTabs`,
`requestQueue` (requests identified by their tab id), the
`isProcessingQueue` flag, plus the set of `processTab` continuations
parked on `await getTabContent` and the active drain-loop tasks.  The
source's guard is what keeps `drains` a singleton; the model allows a
list so that this becomes a theorem rather than an assumption. -/
structure Sys where
  runningTabs : Finset Nat
  requestQueue : List Nat
  isProcessingQueue : Bool
  fetching : List Nat
  drains : List DrainPC
deriving DecidableEq

/-- The scheduler's choices: a `tabs.onUpdated` load-complete event for a
tab (with its group-membership and URL eligibility), completion of a
pending content extraction, and settlement of the in-flight generate or
group phase. -/
inductive Ev
  | load (id : Nat) (grouped : Bool) (urlOk : Bool)
  | fetchDone (id : Nat)
  | genDone (out : GenOutcome)
  | groupDone (raised : Bool)
deriving DecidableEq, Repr

/-- Initial state: empty set, empty queue, flag down, no tasks. -/
def initSys : Sys :=
  { runningTabs := ∅, requestQueue := [], isProcessingQueue := false
    fetching := [], drains := [] }

/-- `processTab(tab)` up to its first suspension point: return if the tab
is grouped, if its id is in `runningTabs`, or if its URL is empty or the
new-tab page; otherwise `runningTabs.add(tab.id)` and suspend on
`await getTabContent(tab.id)`. -/
def stepLoad (s : Sys) (id : Nat) (grouped urlOk : Bool) : Sys :=
  if grouped then s
  else if id ∈ s.runningTabs then s
  else if urlOk = false then s
  else { s with runningTabs := insert id s.runningTabs
                fetching := s.fetching ++ [id] }

/-- The synchronous prologue of a `processQueue()` call: return
immediately when `isProcessingQueue` is set or the queue is empty;
otherwise raise the flag and start generating for the head request. -/
def processQueueCall (s : Sys) : Sys :=
  if s.isProcessingQueue then s
  else
    match s.requestQueue with
    | [] => s
    | t :: _ =>
      { s with isProcessingQueue := true
               drains := s.drains ++ [DrainPC.gen t] }

/-- Resumption of `processTab` after content extraction: push the request
and call `processQueue()`. -/
def stepFetchDone (s : Sys) (id : Nat) : Sys :=
  if id ∈ s.fetching then
    processQueueCall
      { s with fetching := s.fetching.erase id
               requestQueue := s.requestQueue ++ [id] }
  else s

/-- The `finally` block of the drain loop's body plus the loop test:
`runningTabs.delete(request.tab.id)`, `requestQueue.shift()`, then either
start generating for the new head or exit the loop, lowering
`isProcessingQueue` (the outer `finally`) and ending the task. -/
def finishReq (s : Sys) (t : Nat) : Sys :=
  let q := s.requestQueue.drop 1
  match q with
  | [] =>
    { s with runningTabs := s.runningTabs.erase t, requestQueue := q
             isProcessingQueue := false, drains := s.drains.drop 1 }
  | t2 :: _ =>
    { s with runningTabs := s.runningTabs.erase t, requestQueue := q
             drains := DrainPC.gen t2 :: s.drains.drop 1 }

/-- Settlement of the in-flight `generateTagsForTab` call: a truthy tag
list moves on to `groupTab`; a `null` return skips grouping, and a
thrown error is swallowed by the loop's `catch`; in both of the latter
cases the `finally` block runs. -/
def stepGenDone (s : Sys) (out : GenOutcome) : Sys :=
  match s.drains with
  | DrainPC.gen t :: rest =>
    match out with
    | .success => { s with drains := DrainPC.group t :: rest }
    | .nullRes => finishReq s t
    | .raise => finishReq s t
  | _ => s

/-- Settlement of the in-flight `groupTab` call: whether it resolved or
threw (the `catch` swallows and logs the error), the `finally` block
runs. -/
def stepGroupDone (s : Sys) (_raised : Bool) : Sys :=
  match s.drains with
  | DrainPC.group t :: _ => finishReq s t
  | _ => s

/-- One scheduler step. -/
def step (s : Sys) : Ev → Sys
  | .load id grouped urlOk => stepLoad s id grouped urlOk
  | .fetchDone id => stepFetchDone s id
  | .genDone out => stepGenDone s out
  | .groupDone raised => stepGroupDone s raised

/-- The state reached from the initial state by a sequence of events. -/
def run (evs : List Ev) : Sys := evs.foldl step initSys

/-! ### The inductive invariant -/

/-- The inductive invariant of the event system:
1. the drain-task count is governed by the `isProcessingQueue` flag
   (in particular there is never more than one active drain loop);
2. an active drain phase always works on the head of the queue
   (the head request is shifted only after its processing completes);
3. a tab id is in `runningTabs` exactly when its content extraction is
   pending or a request for it sits in the queue;
4. each tab id occurs at most once across the pending extractions and
   the queue. -/
def Inv (s : Sys) : Prop :=
  (s.drains.length = if s.isProcessingQueue then 1 else 0) ∧
  (∀ d ∈ s.drains, s.requestQueue.head? = some d.tab) ∧
  (∀ id : Nat, id ∈ s.runningTabs ↔ (id ∈ s.fetching ∨ id ∈ s.requestQueue)) ∧
  (∀ id : Nat, s.fetching.count id + s.requestQueue.count id ≤ 1)


/-! ## Auxiliary definitions for the claim statements -/

/-- The In-Flight membership characterization claimed by the spec: a
Classification Request for the tab exists in the queue or is the one the
drain loop is currently processing. -/
def inQueueOrProcessing (s : Sys) (id : Nat) : Prop :=
  id ∈ s.requestQueue ∨ ∃ d ∈ s.drains, d.tab = id

instance (s : Sys) (id : Nat) : Decidable (inQueueOrProcessing s id) := by
  unfold inQueueOrProcessing
  infer_instance

/-- The event by which the head request's in-flight phase settles with a
thrown error: rejection of the generate phase or of the grouping
phase. -/
def raiseEv : DrainPC → Ev
  | .gen _ => Ev.genDone GenOutcome.raise
  | .group _ => Ev.groupDone true

/-- The oracle for which the first two prompts reject and the third
resolves. -/
def oThirdTry : GenOracle :=
  ⟨fun _ => true, fun n => if n == 2 then some "a, b, c" else none⟩

/-- The oracle for which every prompt rejects. -/
def oAllFail : GenOracle := ⟨fun _ => true, fun _ => none⟩

/-- The oracle for which session creation always fails while every
prompt would succeed. -/
def oCreateFail : GenOracle := ⟨fun _ => false, fun _ => some "x,y"⟩

/-- The oracle whose first prompt rejects and whose later prompts
resolve. -/
def oFirstFail : GenOracle :=
  ⟨fun _ => true, fun n => if n == 0 then none else some "x"⟩

/-- The oracle whose prompt resolves at once with nine comma-separated
tags. -/
def oNine : GenOracle :=
  ⟨fun _ => true, fun _ => some "t1,t2,t3,t4,t5,t6,t7,t8,t9"⟩

/-- The group used in the resolver witness. -/
def recipesGroup : Group := ⟨3, "Recipes", "blue"⟩

/-- The start state used in the assigner witness. -/
def emptyWindow : PState := ⟨[], 1, none⟩

/-- The oracle whose prompt resolves at once with the empty string. -/
def oEmptyReply : GenOracle := ⟨fun _ => true, fun _ => some ""⟩

/-! ## Equations of the label generator -/

theorem generateTagsAux_createFail (o : GenOracle) (rl rc : Nat)
    (hcf : o.createOk rc = false) :
    generateTagsAux o rl false rc =
      { result := none, msgs := [], prompts := 0, sess := false } := by
  cases rl <;> simp [generateTagsAux, hcf]

theorem generateTagsAux_prompt_ok (o : GenOracle) (rl : Nat) (sess : Bool)
    (rc : Nat) (r : String)
    (hcond : ¬ (sess = false ∧ o.createOk rc = false))
    (hp : o.promptRes rc = some r) :
    generateTagsAux o rl sess rc =
      { result := some ((splitTrim r).take 5)
        msgs := [UiMsg.showProcessing], prompts := 1, sess := true } := by
  cases rl <;> simp [generateTagsAux, hcond, hp]

theorem generateTagsAux_retry (o : GenOracle) (k : Nat) (sess : Bool) (rc : Nat)
    (hcond : ¬ (sess = false ∧ o.createOk rc = false))
    (hp : o.promptRes rc = none) :
    generateTagsAux o (k + 1) sess rc =
      { result := (generateTagsAux o k false (rc + 1)).result
        msgs := UiMsg.showProcessing :: (generateTagsAux o k false (rc + 1)).msgs
        prompts := 1 + (generateTagsAux o k false (rc + 1)).prompts
        sess := (generateTagsAux o k false (rc + 1)).sess } := by
  simp [generateTagsAux, hcond, hp]

theorem generateTagsAux_exhaust (o : GenOracle) (sess : Bool) (rc : Nat)
    (hcond : ¬ (sess = false ∧ o.createOk rc = false))
    (hp : o.promptRes rc = none) :
    generateTagsAux o 0 sess rc =
      { result := none, msgs := [UiMsg.showProcessing, UiMsg.hide]
        prompts := 1, sess := true } := by
  simp [generateTagsAux, hcond, hp]

theorem inv_initSys : Inv initSys := by
  refine ⟨rfl, ?_, ?_, ?_⟩ <;> simp [initSys]

theorem inv_stepLoad (s : Sys) (id : Nat) (g u : Bool) (h : Inv s) :
    Inv (stepLoad s id g u) := by
  obtain ⟨h1, h2, h3, h4⟩ := h
  unfold stepLoad
  split
  · exact ⟨h1, h2, h3, h4⟩
  split
  case isFalse.isTrue hmem =>
    exact ⟨h1, h2, h3, h4⟩
  case isFalse.isFalse hmem =>
    split
    · exact ⟨h1, h2, h3, h4⟩
    have hid : id ∉ s.fetching ∧ id ∉ s.requestQueue := by
      have := (h3 id).mpr
      tauto
    refine ⟨h1, h2, ?_, ?_⟩
    · intro j
      by_cases hj : j = id
      · subst hj; simp
      · simpa [Finset.mem_insert, hj] using h3 j
    · intro j
      have h4j := h4 j
      by_cases hj : j = id
      · subst hj
        simp [List.count_append, List.count_eq_zero.mpr hid.1,
          List.count_eq_zero.mpr hid.2]
      · simp only [List.count_append, List.count_singleton', if_neg (Ne.symm hj)]
        omega

theorem inv_processQueueCall (s : Sys) (h : Inv s) :
    Inv (processQueueCall s) := by
  obtain ⟨h1, h2, h3, h4⟩ := h
  unfold processQueueCall
  split
  · exact ⟨h1, h2, h3, h4⟩
  case isFalse hflag =>
    have hdr : s.drains = [] := by
      have := h1
      rw [if_neg hflag] at this
      exact List.length_eq_zero.mp this
    match hq : s.requestQueue with
    | [] => exact ⟨h1, h2, h3, h4⟩
    | t :: rest =>
      refine ⟨?_, ?_, ?_, ?_⟩
      · simp [hdr]
      · intro d hd
        simp [hdr] at hd
        subst hd
        simp [hq, DrainPC.tab]
      · simpa [hq] using h3
      · simpa [hq] using h4

theorem inv_stepFetchDone (s : Sys) (id : Nat) (h : Inv s) :
    Inv (stepFetchDone s id) := by
  obtain ⟨h1, h2, h3, h4⟩ := h
  unfold stepFetchDone
  split
  case isTrue hmem =>
    apply inv_processQueueCall
    refine ⟨h1, ?_, ?_, ?_⟩
    · intro d hd
      have hne : s.requestQueue ≠ [] := by
        intro hq
        have := h2 d hd
        rw [hq] at this
        simp at this
      match hq : s.requestQueue with
      | [] => exact absurd hq hne
      | t :: rest =>
        have := h2 d hd
        rw [hq] at this
        simpa using this
    · intro j
      by_cases hj : j = id
      · subst hj
        simp [hmem, (h3 j).mpr (Or.inl hmem)]
      · have := h3 j
        simp only [List.mem_erase_of_ne hj, List.mem_append,
          List.mem_singleton, hj, or_false]
        exact this
    · intro j
      by_cases hj : j = id
      · subst hj
        have hcf : 0 < s.fetching.count j := List.count_pos_iff.mpr hmem
        have h4j := h4 j
        have hce : (s.fetching.erase j).count j = s.fetching.count j - 1 :=
          List.count_erase_self ..
        simp [List.count_append, hce]
        omega
      · have h4j := h4 j
        have hce : (s.fetching.erase id).count j = s.fetching.count j :=
          List.count_erase_of_ne hj ..
        simp only [List.count_append, List.count_singleton',
          if_neg (Ne.symm hj), hce]
        omega
  · exact ⟨h1, h2, h3, h4⟩

theorem inv_finishReq (s : Sys) (t : Nat)
    (hlen : s.drains.length = 1)
    (hflag : s.isProcessingQueue = true)
    (hhead : s.requestQueue.head? = some t) (h : Inv s) :
    Inv (finishReq s t) := by
  obtain ⟨h1, h2, h3, h4⟩ := h
  obtain ⟨dd, hdd⟩ : ∃ d, s.drains = [d] := List.length_eq_one.mp hlen
  match hq : s.requestQueue with
  | [] =>
    rw [hq] at hhead
    simp at hhead
  | t' :: qrest =>
    rw [hq] at hhead
    simp at hhead
    obtain rfl : t = t' := hhead.symm
    have hcq1 : 0 < s.requestQueue.count t := by
      rw [hq]; simp [List.count_cons]
    have htf : t ∉ s.fetching := by
      intro hmem
      have := List.count_pos_iff.mpr hmem
      have h4t := h4 t
      omega
    have hqr : qrest.count t = 0 := by
      have h4t := h4 t
      rw [hq] at h4t
      simp [List.count_cons] at h4t
      omega
    have htq : t ∉ qrest := List.count_eq_zero.mp hqr
    unfold finishReq
    rw [hq, hdd]
    simp only [List.drop_succ_cons, List.drop_zero]
    cases qrest with
    | nil =>
      dsimp only
      refine ⟨by simp, by simp, ?_, ?_⟩
      · intro j
        by_cases hj : j = t
        · subst hj
          simp [Finset.mem_erase, htf]
        · have h3j := h3 j
          rw [hq] at h3j
          simp only [List.mem_cons, List.not_mem_nil, or_false, hj] at h3j
          simp [Finset.mem_erase, hj, h3j]
      · intro j
        have h4j := h4 j
        simp
        omega
    | cons t2 qr2 =>
      dsimp only
      refine ⟨by simp [hflag], ?_, ?_, ?_⟩
      · intro d' hd'
        simp at hd'
        subst hd'
        simp [DrainPC.tab]
      · intro j
        by_cases hj : j = t
        · subst hj
          simp [Finset.mem_erase, htf, htq]
        · have h3j := h3 j
          rw [hq] at h3j
          simp only [List.mem_cons, hj, false_or] at h3j
          simp [Finset.mem_erase, hj, h3j]
      · intro j
        have h4j := h4 j
        rw [hq] at h4j
        simp only [List.count_cons] at h4j
        dsimp only
        simp only [List.count_cons]
        omega

theorem inv_stepGenDone (s : Sys) (out : GenOutcome) (h : Inv s) :
    Inv (stepGenDone s out) := by
  have h' := h
  obtain ⟨h1, h2, h3, h4⟩ := h'
  unfold stepGenDone
  match hd : s.drains with
  | [] => exact h
  | DrainPC.group t :: rest => exact h
  | DrainPC.gen t :: rest =>
    have hflag : s.isProcessingQueue = true := by
      by_contra hc
      simp only [Bool.not_eq_true] at hc
      rw [hd, hc] at h1
      simp at h1
    have hrest : rest = [] := by
      rw [hd, hflag] at h1
      simpa using h1
    subst hrest
    have hlen : s.drains.length = 1 := by simp [hd]
    have hhead : s.requestQueue.head? = some t := by
      have := h2 (DrainPC.gen t) (by simp [hd])
      simpa [DrainPC.tab] using this
    match out with
    | .success =>
      refine ⟨by simpa [hd] using h1, ?_, h3, h4⟩
      intro d' hd'
      simp at hd'
      subst hd'
      simpa [DrainPC.tab] using hhead
    | .nullRes => exact inv_finishReq s t hlen hflag hhead h
    | .raise => exact inv_finishReq s t hlen hflag hhead h

theorem inv_stepGroupDone (s : Sys) (raised : Bool) (h : Inv s) :
    Inv (stepGroupDone s raised) := by
  have h' := h
  obtain ⟨h1, h2, h3, h4⟩ := h'
  unfold stepGroupDone
  match hd : s.drains with
  | [] => exact h
  | DrainPC.gen t :: rest => exact h
  | DrainPC.group t :: rest =>
    have hflag : s.isProcessingQueue = true := by
      by_contra hc
      simp only [Bool.not_eq_true] at hc
      rw [hd, hc] at h1
      simp at h1
    have hlen : s.drains.length = 1 := by
      rw [hd, hflag] at h1
      rw [hd]
      simpa using h1
    have hhead : s.requestQueue.head? = some t := by
      have := h2 (DrainPC.group t) (by simp [hd])
      simpa [DrainPC.tab] using this
    exact inv_finishReq s t hlen hflag hhead h

theorem inv_step (s : Sys) (e : Ev) (h : Inv s) : Inv (step s e) := by
  match e with
  | .load id g u => exact inv_stepLoad s id g u h
  | .fetchDone id => exact inv_stepFetchDone s id h
  | .genDone out => exact inv_stepGenDone s out h
  | .groupDone raised => exact inv_stepGroupDone s raised h

/-- Every reachable state satisfies the invariant. -/
theorem inv_run (evs : List Ev) : Inv (run evs) := by
  suffices h : ∀ s, Inv s → Inv (evs.foldl step s) from h initSys inv_initSys
  induction evs with
  | nil => intro s hs; exact hs
  | cons e evs ih => intro s hs; exact ih (step s e) (inv_step s e hs)

/-! ## Properties of the group resolver -/

theorem find?_append_none {α : Type} {p : α → Bool} {l1 l2 : List α}
    (h : l1.find? p = none) : (l1 ++ l2).find? p = l2.find? p := by
  induction l1 with
  | nil => rfl
  | cons a l ih =>
    rw [List.find?_cons] at h
    cases hp : p a with
    | true => rw [hp] at h; simp at h
    | false =>
      rw [hp] at h
      rw [List.cons_append, List.find?_cons, hp]
      exact ih h

/-- `findTabGroup` reports no match exactly when no group of the window
passes either the exact or the fallback comparison. -/
theorem findTabGroup_none_iff (groups : List Group) (tag : String) :
    findTabGroup groups tag = none ↔
      ∀ g ∈ groups, codeLabelMatches g.title tag = false := by
  unfold findTabGroup
  cases hf1 : groups.find? (fun g => exactTitleMatch g.title tag) with
  | some g1 =>
    constructor
    · intro h; cases h
    · intro hall
      have hp := List.find?_some hf1
      have hm := List.mem_of_find?_eq_some hf1
      have := hall g1 hm
      unfold codeLabelMatches at this
      rw [Bool.or_eq_false_iff] at this
      rw [this.1] at hp
      cases hp
  | none =>
    have hall1 : ∀ g ∈ groups, exactTitleMatch g.title tag = false := by
      intro g hg
      simpa using List.find?_eq_none.mp hf1 g hg
    cases hf2 : groups.find? (fun g => fallbackTitleMatch g.title tag) with
    | some g2 =>
      constructor
      · intro h; cases h
      · intro hall
        have hp := List.find?_some hf2
        have hm := List.mem_of_find?_eq_some hf2
        have := hall g2 hm
        unfold codeLabelMatches at this
        rw [Bool.or_eq_false_iff] at this
        simp only [] at hp
        rw [this.2] at hp
        cases hp
    | none =>
      constructor
      · intro _ g hg
        have h2 := List.find?_eq_none.mp hf2 g hg
        unfold codeLabelMatches
        rw [Bool.or_eq_false_iff]
        exact ⟨hall1 g hg, by simpa using h2⟩
      · intro _; rfl

/-- A match reported by `findTabGroup` is the identifier of a group of
the window that passes the match test. -/
theorem findTabGroup_some_spec (groups : List Group) (tag : String) (gid : Nat)
    (h : findTabGroup groups tag = some gid) :
    ∃ g ∈ groups, g.id = gid ∧ codeLabelMatches g.title tag = true := by
  unfold findTabGroup at h
  cases hf1 : groups.find? (fun g => exactTitleMatch g.title tag) with
  | some g1 =>
    rw [hf1] at h
    simp only [Option.some.injEq] at h
    refine ⟨g1, List.mem_of_find?_eq_some hf1, h, ?_⟩
    unfold codeLabelMatches
    rw [Bool.or_eq_true]
    exact Or.inl (by simpa using List.find?_some hf1)
  | none =>
    rw [hf1] at h
    cases hf2 : groups.find? (fun g => fallbackTitleMatch g.title tag) with
    | some g2 =>
      rw [hf2] at h
      simp only [Option.some.injEq] at h
      refine ⟨g2, List.mem_of_find?_eq_some hf2, h, ?_⟩
      unfold codeLabelMatches
      rw [Bool.or_eq_true]
      exact Or.inr (by simpa using List.find?_some hf2)
    | none => rw [hf2] at h; cases h

/-- When every group id is nonzero (as Chrome guarantees), `resolveTags`
reports no match exactly when no tag matches any group. -/
theorem resolveTags_none_iff (groups : List Group) (tags : List String)
    (hids : ∀ g ∈ groups, g.id ≠ 0) :
    resolveTags groups tags = none ↔
      ∀ t ∈ tags, ∀ g ∈ groups, codeLabelMatches g.title t = false := by
  induction tags with
  | nil => simp [resolveTags]
  | cons tag rest ih =>
    unfold resolveTags
    cases hf : findTabGroup groups tag with
    | some gid =>
      obtain ⟨g, hgmem, hgid, hmatch⟩ := findTabGroup_some_spec groups tag gid hf
      have hne : gid ≠ 0 := by rw [← hgid]; exact hids g hgmem
      dsimp only
      rw [if_pos hne]
      constructor
      · intro h; cases h
      · intro hall
        have := hall tag (by simp) g hgmem
        rw [hmatch] at this
        cases this
    | none =>
      rw [ih]
      have htag := (findTabGroup_none_iff groups tag).mp hf
      constructor
      · intro h t ht g hg
        rcases List.mem_cons.mp ht with rfl | ht'
        · exact htag g hg
        · exact h t ht' g hg
      · intro h t ht g hg
        exact h t (List.mem_cons_of_mem _ ht) g hg

/-- When every group id is nonzero, a successful resolution splits the
tag list at the first matching tag: no earlier tag matches any group,
and the returned id belongs to a group matching the returned tag. -/
theorem resolveTags_some_spec (groups : List Group) (tags : List String)
    (hids : ∀ g ∈ groups, g.id ≠ 0) (gid : Nat) (tag : String)
    (h : resolveTags groups tags = some (gid, tag)) :
    ∃ pre post, tags = pre ++ tag :: post ∧
      (∀ t ∈ pre, ∀ g ∈ groups, codeLabelMatches g.title t = false) ∧
      ∃ g ∈ groups, g.id = gid ∧ codeLabelMatches g.title tag = true := by
  induction tags with
  | nil => simp [resolveTags] at h
  | cons tag1 rest ih =>
    unfold resolveTags at h
    cases hf : findTabGroup groups tag1 with
    | some gid1 =>
      rw [hf] at h
      obtain ⟨g, hgmem, hgid, hmatch⟩ := findTabGroup_some_spec groups tag1 gid1 hf
      have hne : gid1 ≠ 0 := by rw [← hgid]; exact hids g hgmem
      dsimp only at h
      rw [if_pos hne] at h
      simp only [Option.some.injEq, Prod.mk.injEq] at h
      obtain ⟨rfl, rfl⟩ := h
      exact ⟨[], rest, rfl, by simp, g, hgmem, hgid, hmatch⟩
    | none =>
      rw [hf] at h
      obtain ⟨pre, post, heq, hpre, hex⟩ := ih h
      refine ⟨tag1 :: pre, post, by simp [heq], ?_, hex⟩
      intro t ht g hg
      rcases List.mem_cons.mp ht with rfl | ht'
      · exact (findTabGroup_none_iff groups t).mp hf g hg
      · exact hpre t ht' g hg

/-! ## Claim theorems -/

/-- C1: In every execution — any sequence of concurrently firing load
events and asynchronous completions — at most one drain-loop task (and
hence at most one Label Generator invocation) is in flight at any time,
and a re-entrant `processQueue` call while draining is active returns
immediately as a no-op, so prompt calls for different queued requests
are never interleaved. -/
theorem single_drain_no_reentry (evs : List Ev) :
    (run evs).drains.length ≤ 1 ∧
    (∀ s : Sys, s.isProcessingQueue = true → processQueueCall s = s) := by
  constructor
  · rw [(inv_run evs).1]
    split <;> simp
  · intro s hs
    unfold processQueueCall
    rw [if_pos hs]

theorem single_drain_no_reentry_witness :
    (run [Ev.load 1 false true, Ev.fetchDone 1]).drains.length ≤ 1 ∧
    processQueueCall (run [Ev.load 1 false true, Ev.fetchDone 1]) =
      run [Ev.load 1 false true, Ev.fetchDone 1] :=
  ⟨(single_drain_no_reentry [Ev.load 1 false true, Ev.fetchDone 1]).1,
   (single_drain_no_reentry [Ev.load 1 false true, Ev.fetchDone 1]).2
     (run [Ev.load 1 false true, Ev.fetchDone 1]) (by decide)⟩

/-- C2: In every reachable state, a request for a tab id occurs at most
once in the queue, and while a tab id is in `runningTabs` a further
load-complete event for it is a no-op (`processTab` tests membership and
adds the id before its first suspension point), so no second
Classification Request for it can be enqueued without an intervening
completion. -/
theorem no_duplicate_enqueue (evs : List Ev) (id : Nat) (g u : Bool) :
    (run evs).requestQueue.count id ≤ 1 ∧
    (id ∈ (run evs).runningTabs → step (run evs) (Ev.load id g u) = run evs) := by
  constructor
  · have h4 := (inv_run evs).2.2.2 id
    omega
  · intro hmem
    show stepLoad (run evs) id g u = run evs
    cases g with
    | true => rfl
    | false =>
      unfold stepLoad
      rw [if_neg (by simp), if_pos hmem]

theorem no_duplicate_enqueue_witness :
    (run [Ev.load 1 false true]).requestQueue.count 1 ≤ 1 ∧
    step (run [Ev.load 1 false true]) (Ev.load 1 false true) =
      run [Ev.load 1 false true] :=
  ⟨(no_duplicate_enqueue [Ev.load 1 false true] 1 false true).1,
   (no_duplicate_enqueue [Ev.load 1 false true] 1 false true).2 (by decide)⟩



/-- C3 is refuted: after a load-complete event for an eligible tab,
while its content extraction is still pending, the tab id is already in
`runningTabs` (added before the first suspension point) but no request
for it is in the queue and nothing is being processed. -/
theorem runningTabs_iff_queued_cex :
    ¬ (1 ∈ (run [Ev.load 1 false true]).runningTabs ↔
        inQueueOrProcessing (run [Ev.load 1 false true]) 1) := by decide

/-- C3 (amended): a tab id is in `runningTabs` exactly when its content
extraction is still pending (the window between `runningTabs.add` and
`requestQueue.push`) or a Classification Request for it is in the queue
— the latter includes the request currently being processed, since the
drain loop shifts the head only after processing completes. -/
theorem runningTabs_iff_pending (evs : List Ev) (id : Nat) :
    id ∈ (run evs).runningTabs ↔
      (id ∈ (run evs).fetching ∨ id ∈ (run evs).requestQueue) :=
  (inv_run evs).2.2.1 id


/-- C4: if processing the head request raises (in the generate phase or
the grouping phase), the drain loop catches the error, the faulty
request is removed from the queue exactly once (it is not requeued), the
tab id leaves `runningTabs`, and the loop continues with the remaining
requests — starting the next head's generation, or stopping exactly when
the queue is empty. -/
theorem drain_error_continues (evs : List Ev) (d : DrainPC)
    (hd : (run evs).drains = [d]) :
    (step (run evs) (raiseEv d)).requestQueue = (run evs).requestQueue.drop 1 ∧
    d.tab ∉ (step (run evs) (raiseEv d)).requestQueue ∧
    d.tab ∉ (step (run evs) (raiseEv d)).runningTabs ∧
    ((run evs).requestQueue.drop 1 = [] →
      (step (run evs) (raiseEv d)).drains = [] ∧
      (step (run evs) (raiseEv d)).isProcessingQueue = false) ∧
    (∀ t2 r2, (run evs).requestQueue.drop 1 = t2 :: r2 →
      (step (run evs) (raiseEv d)).drains = [DrainPC.gen t2] ∧
      (step (run evs) (raiseEv d)).isProcessingQueue = true) := by
  obtain ⟨h1, h2, h3, h4⟩ := inv_run evs
  set s := run evs with hs
  have hhead : s.requestQueue.head? = some d.tab := h2 d (by rw [hd]; simp)
  have hstep : step s (raiseEv d) = finishReq s d.tab := by
    cases d with
    | gen t =>
      show stepGenDone s GenOutcome.raise = _
      unfold stepGenDone
      rw [hd]
      rfl
    | group t =>
      show stepGroupDone s true = _
      unfold stepGroupDone
      rw [hd]
      rfl
  rw [hstep]
  match hq : s.requestQueue with
  | [] => rw [hq] at hhead; simp at hhead
  | t' :: qrest =>
    rw [hq] at hhead
    simp at hhead
    subst hhead
    have hflag : s.isProcessingQueue = true := by
      by_contra hc
      simp only [Bool.not_eq_true] at hc
      rw [hd, hc] at h1
      simp at h1
    have hqcount : qrest.count d.tab = 0 := by
      have h4t := h4 d.tab
      rw [hq] at h4t
      simp [List.count_cons] at h4t
      omega
    have htq : d.tab ∉ qrest := List.count_eq_zero.mp hqcount
    unfold finishReq
    rw [hq, hd]
    simp only [List.drop_succ_cons, List.drop_zero]
    cases qrest with
    | nil =>
      dsimp only
      refine ⟨rfl, by simp, by simp [Finset.mem_erase], by simp, ?_⟩
      intro t2 r2 hcontra
      cases hcontra
    | cons t2 qr2 =>
      dsimp only
      refine ⟨rfl, htq, by simp [Finset.mem_erase], ?_, ?_⟩
      · intro hcontra; cases hcontra
      · intro t2' r2' heq
        injection heq with he1 he2
        subst he1
        subst he2
        exact ⟨rfl, hflag⟩

theorem drain_error_continues_witness :
    (step (run [Ev.load 1 false true, Ev.fetchDone 1])
        (raiseEv (DrainPC.gen 1))).requestQueue = [] ∧
    1 ∉ (step (run [Ev.load 1 false true, Ev.fetchDone 1])
        (raiseEv (DrainPC.gen 1))).runningTabs ∧
    (step (run [Ev.load 1 false true, Ev.fetchDone 1])
        (raiseEv (DrainPC.gen 1))).drains = [] ∧
    (step (run [Ev.load 1 false true, Ev.fetchDone 1])
        (raiseEv (DrainPC.gen 1))).isProcessingQueue = false := by
  have h := drain_error_continues [Ev.load 1 false true, Ev.fetchDone 1]
    (DrainPC.gen 1) (by decide)
  refine ⟨h.1.trans (by decide), h.2.2.1, ?_, ?_⟩
  · exact (h.2.2.2.1 (by decide)).1
  · exact (h.2.2.2.1 (by decide)).2

/-- C5: with a live session and a model service that fails the prompt on
attempts 1 and 2, if attempt 3 succeeds with response `r` then
`generateTagsForTab` returns the label list derived from that attempt
(and stops after exactly 3 prompts, never sending `hide`); if attempt 3
also fails, it returns `null` after exactly 3 prompts and the `hide`
notification is sent exactly once. -/
theorem generate_retry_budget (o : GenOracle) (r : String)
    (h0 : o.promptRes 0 = none) (h1 : o.promptRes 1 = none)
    (hc : ∀ n, o.createOk n = true) :
    (o.promptRes 2 = some r →
      (generateTagsForTab o true 0).result = some ((splitTrim r).take 5) ∧
      (generateTagsForTab o true 0).prompts = 3 ∧
      (generateTagsForTab o true 0).msgs.count UiMsg.hide = 0) ∧
    (o.promptRes 2 = none →
      (generateTagsForTab o true 0).result = none ∧
      (generateTagsForTab o true 0).prompts = 3 ∧
      (generateTagsForTab o true 0).msgs.count UiMsg.hide = 1) := by
  have hc1 : ¬ ((true : Bool) = false ∧ o.createOk 0 = false) := by simp
  have hc2 : ¬ ((false : Bool) = false ∧ o.createOk 1 = false) := by simp [hc 1]
  have hc3 : ¬ ((false : Bool) = false ∧ o.createOk 2 = false) := by simp [hc 2]
  have e1 := generateTagsAux_retry o 1 true 0 hc1 h0
  have e2 := generateTagsAux_retry o 0 false 1 hc2 h1
  constructor
  · intro h2
    have e3 := generateTagsAux_prompt_ok o 0 false 2 r hc3 h2
    rw [e3] at e2
    rw [e2] at e1
    unfold generateTagsForTab
    rw [show 2 - 0 = 2 from rfl, e1]
    simp [List.count_cons]
  · intro h2
    have e3 := generateTagsAux_exhaust o false 2 hc3 h2
    rw [e3] at e2
    rw [e2] at e1
    unfold generateTagsForTab
    rw [show 2 - 0 = 2 from rfl, e1]
    simp [List.count_cons]



theorem generate_retry_budget_witness :
    (generateTagsForTab oThirdTry true 0).result = some ["a", "b", "c"] ∧
    (generateTagsForTab oThirdTry true 0).prompts = 3 ∧
    (generateTagsForTab oAllFail true 0).result = none ∧
    (generateTagsForTab oAllFail true 0).msgs.count UiMsg.hide = 1 := by
  have hs := (generate_retry_budget oThirdTry "a, b, c" rfl rfl (fun _ => rfl)).1 rfl
  have hf := (generate_retry_budget oAllFail "" rfl rfl (fun _ => rfl)).2 rfl
  exact ⟨hs.1.trans (by decide), hs.2.1, hf.1, hf.2.2⟩


/-- C6 is refuted: when session creation fails on the first attempt,
`generateTagsForTab` returns `null` immediately — zero prompt attempts
are made and no notification is sent — even though every later prompt
would have succeeded; no further attempts follow. -/
theorem generate_create_fail_cex :
    (generateTagsForTab oCreateFail false 0).result = none ∧
    (generateTagsForTab oCreateFail false 0).prompts = 0 ∧
    (generateTagsForTab oCreateFail false 0).msgs = [] := by decide

/-- C6 (amended): a prompt failure discards the current Model Session
and retries the whole procedure within the budget of 3 total attempts
(the recursive attempt starts without a session, forcing lazy
recreation); a session-creation failure, by contrast, makes
`generateTagsForTab` return Failure immediately at whatever attempt it
occurs, without consuming prompt attempts. -/
theorem generate_failure_modes (o : GenOracle) (sess : Bool) (rc : Nat) :
    (sess = false → o.createOk rc = false →
      generateTagsForTab o sess rc =
        { result := none, msgs := [], prompts := 0, sess := false }) ∧
    (o.promptRes rc = none → rc < 2 → (sess = true ∨ o.createOk rc = true) →
      generateTagsForTab o sess rc =
        { result := (generateTagsForTab o false (rc + 1)).result
          msgs := UiMsg.showProcessing :: (generateTagsForTab o false (rc + 1)).msgs
          prompts := 1 + (generateTagsForTab o false (rc + 1)).prompts
          sess := (generateTagsForTab o false (rc + 1)).sess }) := by
  constructor
  · intro hs hcf
    subst hs
    unfold generateTagsForTab
    exact generateTagsAux_createFail o (2 - rc) rc hcf
  · intro hp hrc hsc
    have hcond : ¬ (sess = false ∧ o.createOk rc = false) := by
      rcases hsc with h | h <;> simp [h]
    have h2 : 2 - rc = (2 - (rc + 1)) + 1 := by omega
    unfold generateTagsForTab
    rw [h2]
    exact generateTagsAux_retry o (2 - (rc + 1)) sess rc hcond hp


theorem generate_failure_modes_witness :
    generateTagsForTab oCreateFail false 0 =
      { result := none, msgs := [], prompts := 0, sess := false } ∧
    generateTagsForTab oFirstFail true 0 =
      { result := (generateTagsForTab oFirstFail false 1).result
        msgs := UiMsg.showProcessing :: (generateTagsForTab oFirstFail false 1).msgs
        prompts := 1 + (generateTagsForTab oFirstFail false 1).prompts
        sess := (generateTagsForTab oFirstFail false 1).sess } :=
  ⟨(generate_failure_modes oCreateFail false 0).1 rfl rfl,
   (generate_failure_modes oFirstFail true 0).2 rfl (by omega) (Or.inl rfl)⟩


/-- C9 is refuted: for a nine-tag model response, `generateTagsForTab`
does NOT return the full split-and-trimmed Candidate Label List (of
length nine); it returns only the five-element prefix — the truncation
happens in the generator itself (`return tags.slice(0, 5)`), not at the
UI boundary. -/
theorem generator_full_list_cex :
    (generateTagsForTab oNine true 0).result ≠
      some (splitTrim "t1,t2,t3,t4,t5,t6,t7,t8,t9") ∧
    (splitTrim "t1,t2,t3,t4,t5,t6,t7,t8,t9").length = 9 ∧
    (generateTagsForTab oNine true 0).result =
      some ["t1", "t2", "t3", "t4", "t5"] := by decide

/-- C9 (amended): for every model response, the generator yields the
FIVE-element prefix of the list obtained by splitting the response on
commas and trimming each piece; the grouping step therefore only ever
sees at most five candidate labels. -/
theorem generator_returns_five_prefix (o : GenOracle) (sess : Bool) (r : String)
    (h : o.promptRes 0 = some r) (hs : sess = true ∨ o.createOk 0 = true) :
    (generateTagsForTab o sess 0).result = some ((splitTrim r).take 5) ∧
    ∀ l, (generateTagsForTab o sess 0).result = some l → l.length ≤ 5 := by
  have hcond : ¬ (sess = false ∧ o.createOk 0 = false) := by
    rcases hs with h' | h' <;> simp [h']
  have hgen : generateTagsForTab o sess 0 =
      { result := some ((splitTrim r).take 5)
        msgs := [UiMsg.showProcessing], prompts := 1, sess := true } := by
    unfold generateTagsForTab
    exact generateTagsAux_prompt_ok o (2 - 0) sess 0 r hcond h
  refine ⟨by rw [hgen], ?_⟩
  intro l hl
  rw [hgen] at hl
  simp at hl
  subst hl
  exact List.length_take_le 5 (splitTrim r)

theorem generator_returns_five_prefix_witness :
    (generateTagsForTab oNine false 0).result =
      some ((splitTrim "t1,t2,t3,t4,t5,t6,t7,t8,t9").take 5) ∧
    ∀ l, (generateTagsForTab oNine false 0).result = some l → l.length ≤ 5 :=
  generator_returns_five_prefix oNine false "t1,t2,t3,t4,t5,t6,t7,t8,t9"
    rfl (Or.inr rfl)

/-- C7 is refuted at group title "NEWS" with label "new": under the
claim's match rule — strip a single trailing "s" from both the group
title and the label, case-insensitively, then compare case-insensitively
— the label matches the group, but the code's resolution reports
NotFound, because the title-side strip test `group.title.slice(-1) ===
's'` reads the original title and `'S' !== 's'`. -/
theorem resolver_strip_cex :
    specLabelMatches "NEWS" "new" = true ∧
    codeLabelMatches "NEWS" "new" = false ∧
    findTabGroup [⟨7, "NEWS", "blue"⟩] "new" = none ∧
    resolveTags [⟨7, "NEWS", "blue"⟩] ["new"] = none := by decide

/-- C7 (amended): resolution returns a group matched by the first label,
in list order, that matches any group of the window — either by
case-insensitive exact title comparison or by the fallback comparison in
which the label is lowercased and stripped of a trailing 's' while the
group title is stripped only when its original last character is a
lowercase 's' — labels after the first match are not examined, and
NotFound is reported exactly when no label matches any group.  In
particular 'Recipes' matches labels 'recipe' and 'recipes', and label
'gadgets' matches a group titled 'Gadget'. -/
theorem resolver_first_match (groups : List Group) (tags : List String)
    (hids : ∀ g ∈ groups, g.id ≠ 0) :
    (∀ gid tag, resolveTags groups tags = some (gid, tag) →
      ∃ pre post, tags = pre ++ tag :: post ∧
        (∀ t ∈ pre, ∀ g ∈ groups, codeLabelMatches g.title t = false) ∧
        ∃ g ∈ groups, g.id = gid ∧ codeLabelMatches g.title tag = true) ∧
    (resolveTags groups tags = none ↔
      ∀ t ∈ tags, ∀ g ∈ groups, codeLabelMatches g.title t = false) ∧
    codeLabelMatches "Recipes" "recipe" = true ∧
    codeLabelMatches "Recipes" "recipes" = true ∧
    codeLabelMatches "Gadget" "gadgets" = true :=
  ⟨fun gid tag h => resolveTags_some_spec groups tags hids gid tag h,
   resolveTags_none_iff groups tags hids, by decide, by decide, by decide⟩


theorem resolver_first_match_witness :
    ∃ pre post, ["recipe"] = pre ++ "recipe" :: post ∧
      (∀ t ∈ pre, ∀ g ∈ [recipesGroup], codeLabelMatches g.title t = false) ∧
      ∃ g ∈ [recipesGroup], g.id = 3 ∧ codeLabelMatches g.title "recipe" = true :=
  (resolver_first_match [recipesGroup] ["recipe"] (by decide)).1 3 "recipe"
    (by decide)

/-- C8: when a first `groupTab` call with a non-empty tag list found no
matching group and therefore created a new group titled with the first
tag, a second call with the same tab and tag list resolves that group by
title and adds the tab to it: the group list is unchanged by the second
call, exactly one group carries that title (case-insensitively), and the
tab is placed in the group the first call created. -/
theorem groupTab_idempotent (ps : PState) (tags : List String) (c1 c2 : Nat)
    (hne : tags ≠ [])
    (hids : ∀ g ∈ ps.groups, g.id ≠ 0)
    (hn0 : ps.nextId ≠ 0)
    (hmiss : resolveTags ps.groups tags = none) :
    (groupTab (groupTab ps tags c1) tags c2).groups = (groupTab ps tags c1).groups ∧
    ((groupTab (groupTab ps tags c1) tags c2).groups.filter
        (fun g => exactTitleMatch g.title (tags.headD ""))).length = 1 ∧
    (groupTab (groupTab ps tags c1) tags c2).tabGroupId = some ps.nextId := by
  match tags, hne with
  | t0 :: rest, _ =>
    have hall := (resolveTags_none_iff ps.groups (t0 :: rest) hids).mp hmiss
    have hnomatch : ∀ g ∈ ps.groups, codeLabelMatches g.title t0 = false :=
      fun g hg => hall t0 (by simp) g hg
    have hexfalse : ∀ g ∈ ps.groups, exactTitleMatch g.title t0 = false := by
      intro g hg
      have := hnomatch g hg
      unfold codeLabelMatches at this
      rw [Bool.or_eq_false_iff] at this
      exact this.1
    -- the first call takes the creation branch
    have hps1 : groupTab ps (t0 :: rest) c1 =
        { groups := ps.groups ++
            [⟨ps.nextId, t0, colors.getD (c1 % colors.length) "grey"⟩]
          nextId := ps.nextId + 1
          tabGroupId := some ps.nextId } := by
      unfold groupTab
      rw [if_neg (by simp), hmiss]
      rfl
    set newG : Group := ⟨ps.nextId, t0, colors.getD (c1 % colors.length) "grey"⟩
      with hnewG
    -- the second call resolves the created group at the first tag
    have hfind : findTabGroup (ps.groups ++ [newG]) t0 = some ps.nextId := by
      unfold findTabGroup
      rw [find?_append_none (List.find?_eq_none.mpr
        (fun g hg => by simp [hexfalse g hg]))]
      rw [List.find?_cons]
      have : exactTitleMatch newG.title t0 = true := by
        simp [exactTitleMatch, hnewG]
      rw [this]
    have hres2 : resolveTags (ps.groups ++ [newG]) (t0 :: rest) =
        some (ps.nextId, t0) := by
      unfold resolveTags
      rw [hfind]
      dsimp only
      rw [if_pos hn0]
    have hps2 : groupTab (groupTab ps (t0 :: rest) c1) (t0 :: rest) c2 =
        { groups := ps.groups ++ [newG]
          nextId := ps.nextId + 1
          tabGroupId := some ps.nextId } := by
      rw [hps1]
      unfold groupTab
      rw [if_neg (by simp)]
      dsimp only
      rw [hres2]
    rw [hps2, hps1]
    refine ⟨rfl, ?_, rfl⟩
    show ((ps.groups ++ [newG]).filter
      (fun g => exactTitleMatch g.title ((t0 :: rest).headD ""))).length = 1
    rw [show (t0 :: rest).headD "" = t0 from rfl]
    rw [List.filter_append]
    rw [List.filter_eq_nil_iff.mpr (fun g hg => by simp [hexfalse g hg])]
    simp [exactTitleMatch]


theorem groupTab_idempotent_witness :
    (groupTab (groupTab emptyWindow ["Travel"] 0) ["Travel"] 4).groups =
      (groupTab emptyWindow ["Travel"] 0).groups ∧
    ((groupTab (groupTab emptyWindow ["Travel"] 0) ["Travel"] 4).groups.filter
        (fun g => exactTitleMatch g.title (["Travel"].headD ""))).length = 1 ∧
    (groupTab (groupTab emptyWindow ["Travel"] 0) ["Travel"] 4).tabGroupId =
      some emptyWindow.nextId :=
  groupTab_idempotent emptyWindow ["Travel"] 0 4 (by decide) (by decide)
    (by decide) (by decide)


/-- C10: splitting any reply on commas yields a non-empty list, so an
empty model reply is treated as a success: the generator returns the
one-element list containing the empty string (no `hide` notification),
that list passes `groupTab`'s non-empty guard, and when no existing
group matches, a new group titled with the empty string is created. -/
theorem empty_reply_creates_empty_group (o : GenOracle) (ps : PState)
    (cIdx : Nat)
    (hp : o.promptRes 0 = some "")
    (hmiss : resolveTags ps.groups [""] = none) :
    (generateTagsForTab o true 0).result = some [""] ∧
    (generateTagsForTab o true 0).msgs.count UiMsg.hide = 0 ∧
    (groupTab ps [""] cIdx).groups =
      ps.groups ++ [⟨ps.nextId, "", colors.getD (cIdx % colors.length) "grey"⟩] ∧
    ∃ g ∈ (groupTab ps [""] cIdx).groups, g.title = "" := by
  have hgen : generateTagsForTab o true 0 =
      { result := some ((splitTrim "").take 5)
        msgs := [UiMsg.showProcessing], prompts := 1, sess := true } := by
    unfold generateTagsForTab
    exact generateTagsAux_prompt_ok o (2 - 0) true 0 "" (by simp) hp
  have hg : (groupTab ps [""] cIdx).groups =
      ps.groups ++ [⟨ps.nextId, "", colors.getD (cIdx % colors.length) "grey"⟩] := by
    unfold groupTab
    rw [if_neg (by simp), hmiss]
    rfl
  refine ⟨by rw [hgen]; decide, by rw [hgen]; decide, hg, ?_⟩
  refine ⟨⟨ps.nextId, "", colors.getD (cIdx % colors.length) "grey"⟩, ?_, rfl⟩
  rw [hg]
  simp

theorem empty_reply_creates_empty_group_witness :
    (generateTagsForTab oEmptyReply true 0).result = some [""] ∧
    (generateTagsForTab oEmptyReply true 0).msgs.count UiMsg.hide = 0 ∧
    (groupTab emptyWindow [""] 0).groups =
      emptyWindow.groups ++
        [⟨emptyWindow.nextId, "", colors.getD (0 % colors.length) "grey"⟩] ∧
    ∃ g ∈ (groupTab emptyWindow [""] 0).groups, g.title = "" :=
  empty_reply_creates_empty_group oEmptyReply emptyWindow 0 rfl (by decide)

end AITabGroups
